import Mathlib

/-!
Verification development for the LocoProp trainer (`locoprop.py`).

Modelling conventions:

* Tensors are flattened into `List ℚ`; elementwise torch operations become
  `List.zipWith`/`List.map`.  Shape bookkeeping (batch dimension, `flatten`)
  is collapsed; nothing proved below depends on it except the correction-step
  norm bound, which is treated separately over `ℝ` (it involves square roots).
* The autodiff engine, the wrapped sub-modules and the optimizers are external
  collaborators (spec §1).  A layer's parametric transform is an opaque
  function `module : Tensor → Tensor`; the per-step hidden-state gradients
  harvested after `backward` are an oracle argument to `step`; optimizer
  internals are not modelled (only whether a slot holds an optimizer).
* Python exceptions are modelled with `Except Err`.  In-place mutation of
  trainer attributes (`self._step`, `self.grads`) is modelled by returning the
  post-call values alongside the outcome, since Python retains the mutations
  even when the call raises.
* Python's float arithmetic is modelled with `ℚ`.  The one point where the
  semantics differ is division by zero: a torch tensor divided by float `0.0`
  yields `inf`/`NaN` elementwise, while `ℚ` division by zero yields `0`.
  Every statement below that touches a division by zero is chosen so that it
  holds under either reading (the divided value is nonzero, so the quotient
  differs from it in both semantics).
-/

/-- Python exception outcomes of the source.
* `invalidArgument`: `ValueError("No argument was given. ...")`, `LocoLayer.forward`.
* `unboundLocal`: Python `UnboundLocalError` — every supported branch of
  `LocoLayer._pseudo_inverse` reads the local name `y` before assignment
  (the parameter is named `target`, and the ReLU branch's `y = y.clip(0, None)`
  makes `y` function-local on all paths).
* `unsupportedActivation`: `ValueError(f"Unsupported activation function: ...")`.
* `keyError`: `KeyError` from `function_mapping[self.activation]` — the dict is
  keyed by the activation classes but indexed with the activation instance.
* `typeError`: Python `TypeError` from multiplying a float with `None`
  (`self.learning_rate * grad` or `(1 - self.momentum) * g` with a `None` grad).
* `inconsistentConfiguration`: `ValueError("Expected trainable layers to be
  instance of LocoLayer ...")` raised in the optimizer-slot loop of `step`. -/
inductive Err where
  | invalidArgument
  | unboundLocal
  | unsupportedActivation
  | keyError
  | typeError
  | inconsistentConfiguration
deriving DecidableEq, Repr

/-- Flattened tensor of rationals (see the modelling conventions above). -/
abbrev Tensor := List ℚ

/-- Elementwise tensor addition (`+` on torch tensors). -/
def tadd (a b : Tensor) : Tensor := List.zipWith (· + ·) a b

/-- Elementwise tensor subtraction (`-` on torch tensors). -/
def tsub (a b : Tensor) : Tensor := List.zipWith (· - ·) a b

/-- Scalar multiplication of a tensor (`float * tensor`). -/
def tsmul (c : ℚ) (t : Tensor) : Tensor := t.map (fun x => c * x)

/-- Inner product, `torch.einsum("bf,bf->b", ...)` with the batch collapsed. -/
def tdot (a b : Tensor) : ℚ := (List.zipWith (· * ·) a b).sum

/-- The closed set of activation identities dispatched on by `isinstance`
checks in `_pseudo_inverse`; `other` stands for any activation outside the
supported set. -/
inductive ActKind where
  | sigmoid
  | tanh
  | relu
  | softmax
  | other
deriving DecidableEq, Repr

/-- `LocoLayer` (source lines 18–24): a wrapped parametric transform
(`module`, opaque, parameters baked in — see `runLocalIters` below for why the
parameters never change), the activation's identity (`act`, used for
`isinstance` dispatch), the activation's opaque elementwise forward
application (`actApply`, i.e. `self.activation(...)` as a callable), the
`implicit` flag and the clipping `eps`. -/
structure LocoLayer where
  module : Tensor → Tensor
  act : ActKind
  actApply : Tensor → Tensor
  implicit : Bool
  eps : ℚ

/-- `LocoLayer.forward` (source lines 26–37): raises if both arguments are
omitted; computes `hidden = self.module(x)` only when `hidden` is omitted;
returns the pre-activation when `implicit`, else the activated value. -/
def LocoLayer.forward (l : LocoLayer) (x hidden : Option Tensor) : Except Err Tensor :=
  match x, hidden with
  | none, none => .error .invalidArgument
  | some xv, none =>
      let h := l.module xv
      .ok (if l.implicit then h else l.actApply h)
  | _, some h => .ok (if l.implicit then h else l.actApply h)

/-- `LocoLayer.hidden` (source lines 39–40). -/
def LocoLayer.hiddenOf (l : LocoLayer) (x : Tensor) : Tensor := l.module x

/-- Total form of `layer(x)` (forward with only the input supplied), used by
the trainer where the source calls `layer(curr)` / `layer(inp)`. -/
def LocoLayer.applyFwd (l : LocoLayer) (x : Tensor) : Tensor :=
  if l.implicit then l.module x else l.actApply (l.module x)

/-- `LocoLayer._pseudo_inverse` (source lines 42–57).  Every branch of the
supported set reads the name `y`, which is never bound (the parameter is named
`target`; the ReLU branch's assignment `y = y.clip(0, None)` makes `y` local to
the whole function), so each supported branch raises `UnboundLocalError`
before performing any arithmetic.  An unsupported activation falls through to
`raise ValueError(f"Unsupported activation function: ...")`. -/
def LocoLayer.pseudoInverse (l : LocoLayer) (target : Tensor) : Except Err Tensor :=
  match l.act with
  | .sigmoid => .error .unboundLocal
  | .tanh => .error .unboundLocal
  | .relu => .error .unboundLocal
  | .softmax => .error .unboundLocal
  | .other => .error .unsupportedActivation

/-- `function_mapping[self.activation]` (source lines 11–15 and 64).  The dict
is keyed by the activation *classes* (`nn.Sigmoid`, `nn.Tanh`, `nn.ReLU`,
`nn.Softmax`) but `bregman_loss` indexes it with the activation *instance*;
`nn.Module` keeps default identity hashing/equality, so the lookup raises
`KeyError` for every activation instance.  (Independently, the ReLU entry's
body references `F.relu` although `torch.nn.functional` is never imported.) -/
def functionMappingLookup (l : LocoLayer) : Except Err (Tensor → ℚ) :=
  .error .keyError

/-- `LocoLayer.bregman_loss` (source lines 60–65): computes the pre-activation,
then pseudo-inverts the target (which always raises, see `pseudoInverse`),
then would look up the potential and form
`F(pre_act) - F(a) - ⟨activation(a), pre_act - a⟩`.  The batch/`flatten`
bookkeeping is collapsed in this model, so the result is a single `ℚ`. -/
def LocoLayer.bregmanLoss (l : LocoLayer) (x y : Tensor) : Except Err ℚ :=
  let preAct := l.module x
  match l.pseudoInverse y with
  | .error e => .error e
  | .ok a =>
    match functionMappingLookup l with
    | .error e => .error e
    | .ok f => .ok (f preAct - f a - tdot (l.actApply a) (tsub preAct a))

/-- A layer of the sequential model: a `LocoLayer` or a plain module, in both
cases together with its number of trainable parameters
(`sum(p.numel() for p in layer.parameters() if p.requires_grad)`). -/
inductive Layer where
  | loco (l : LocoLayer) (nTrainable : ℕ)
  | plain (f : Tensor → Tensor) (nTrainable : ℕ)

instance : Inhabited Layer := ⟨.plain id 0⟩

def Layer.isLoco : Layer → Bool
  | .loco _ _ => true
  | .plain _ _ => false

def Layer.trainableParams : Layer → ℕ
  | .loco _ n => n
  | .plain _ n => n

/-- `layer(curr)` for an arbitrary layer of the model. -/
def Layer.run : Layer → Tensor → Tensor
  | .loco l _, x => l.applyFwd x
  | .plain f _, x => f x

/-- Optimizer-slot construction, `LocopropTrainer.__init__` lines 91–106:
one optimizer instance per layer with `isinstance(layer, LocoLayer) and
trainable_params > 0`, else `None`.  Optimizer internals are external, so a
slot is just `some ()` or `none`. -/
def mkOpts (model : List Layer) : List (Option Unit) :=
  model.map (fun layer =>
    if layer.isLoco = true ∧ 0 < layer.trainableParams then some () else none)

/-- Warning emission of `LocopropTrainer.__init__` lines 96–99, with the index
it was emitted at: one `warnings.warn` per layer with
`trainable_params > 0 and not isinstance(layer, LocoLayer)`, in layer order. -/
def mkWarningsAux : ℕ → List Layer → List ℕ
  | _, [] => []
  | i, layer :: rest =>
    if 0 < layer.trainableParams ∧ layer.isLoco = false then
      i :: mkWarningsAux (i + 1) rest
    else
      mkWarningsAux (i + 1) rest

/-- Indices of the layers the constructor warns about, in emission order. -/
def mkWarnings (model : List Layer) : List ℕ := mkWarningsAux 0 model

/-- The trainer-owned state and configuration (`LocopropTrainer.__init__`):
the layer list, the optimizer slots, the gradient-EMA slots (`self.grads`,
initially `[]`), the step counter (`self._step`), and the numeric
hyperparameters.  `loss_fn`, the optimizer class and its hyperparameters are
external collaborators and are not part of the modelled state; the `variant`
tag is stored but never read by the algorithm. -/
structure Trainer where
  model : List Layer
  opts : List (Option Unit)
  grads : List (Option Tensor)
  stepCount : ℕ
  momentum : ℚ
  learningRate : ℚ
  localIterations : ℕ
  correction : ℚ

/-- Global forward pass with hidden capture (`step` lines 112–126), over
`zip(self.model, self.opts)`: records each layer's input (`inps`, detach is
the identity here since autodiff is external), captures the pre-activation
for layers with `opt is not None and isinstance(layer, LocoLayer)`
(continuing from `layer(hidden=hidden)`), and otherwise forwards with
`layer(curr)`.  Returns `(inps, hiddens, final output)`. -/
def forwardPass : List (Layer × Option Unit) → Tensor →
    List Tensor × List (Option Tensor) × Tensor
  | [], curr => ([], [], curr)
  | (layer, opt) :: rest, curr =>
    match layer, opt with
    | .loco l _, some _ =>
      let hidden := l.module curr
      let out := if l.implicit then hidden else l.actApply hidden
      let r := forwardPass rest out
      (curr :: r.1, some hidden :: r.2.1, r.2.2)
    | _, _ =>
      let r := forwardPass rest (Layer.run layer curr)
      (curr :: r.1, none :: r.2.1, r.2.2)

/-- Gradient harvest (`step` line 131): `h.grad` for each captured hidden,
`None` for uncaptured slots.  The autodiff engine is external, so the per-slot
gradients it produced are an `oracle` argument (`oracle_i` plays `h_i.grad`,
which may itself be `None`). -/
def harvestGrads (hiddens oracle : List (Option Tensor)) : List (Option Tensor) :=
  List.zipWith (fun h o => match h with | none => none | some _ => o) hiddens oracle

/-- One elementwise EMA update, `((1 - momentum) * g + momentum * m) / debias`. -/
def emaPoint (momentum debias g m : ℚ) : ℚ :=
  ((1 - momentum) * g + momentum * m) / debias

/-- One slot of the EMA list comprehension (`step` line 136):
`None if m is None else ((1 - momentum) * g + momentum * m) / debias`.
When `m` is a tensor but `g` is `None`, `(1 - momentum) * g` is a
float-times-`None` `TypeError`. -/
def emaCombine (momentum debias : ℚ) (g m : Option Tensor) : Except Err (Option Tensor) :=
  match m with
  | none => .ok none
  | some mv =>
    match g with
    | none => .error .typeError
    | some gv => .ok (some (List.zipWith (emaPoint momentum debias) gv mv))

/-- The EMA list comprehension over `zip(grads, self.grads)` (`step` line 136);
`zip` truncates to the shorter list, and the first raising slot aborts the
whole comprehension before `self.grads` is reassigned. -/
def emaZip (momentum debias : ℚ) :
    List (Option Tensor) → List (Option Tensor) → Except Err (List (Option Tensor))
  | [], _ => .ok []
  | _ :: _, [] => .ok []
  | g :: gs, m :: ms =>
    match emaCombine momentum debias g m with
    | .error e => .error e
    | .ok r =>
      match emaZip momentum debias gs ms with
      | .error e => .error e
      | .ok rs => .ok (r :: rs)

/-- The value assigned to `self.grads` in `step` lines 131–136: the harvested
gradients verbatim on the first call (`len(self.grads) == 0`), otherwise the
debiased EMA with `debias = 1 - (1 - momentum) ** step` evaluated at the
already incremented step counter. -/
def nextGrads (T : Trainer) (hiddens oracle : List (Option Tensor)) :
    Except Err (List (Option Tensor)) :=
  let grads := harvestGrads hiddens oracle
  if T.grads.isEmpty then .ok grads
  else emaZip T.momentum (1 - (1 - T.momentum) ^ (T.stepCount + 1)) grads T.grads

/-- The inner loop of `step` lines 154–160: each of the `local_iterations`
iterations mutates the optimizer's learning-rate field (external state),
zeroes gradients, evaluates `layer.bregman_loss(inp, post_target).mean()`
— which raises (see `bregmanLoss`) before `loss.backward()` and `opt.step()`
can run — so the optimizer never performs a parameter update and the layer's
parameters (baked into `module`) are constant across the loop. -/
def runLocalIters (l : LocoLayer) (inp postTarget : Tensor) : ℕ → Except Err Unit
  | 0 => .ok ()
  | j + 1 =>
    match l.bregmanLoss inp postTarget with
    | .error e => .error e
    | .ok _ => runLocalIters l inp postTarget j

/-- Context of the per-layer local-optimization loop.  `nudgeF` is the
increment of the inter-layer correction (`step` lines 166–168):
`min(norm, correction * delta.size(1) ** 0.5) * delta / norm` with
`norm = delta.norm() + 1e-5`, given the correction magnitude, the layer's
recomputed output `layer(inp)` and the recorded `inps[i + 1]`.  Because this
formula involves a square root it is analysed separately over `ℝ`
(`deltaNudge` below); the loop takes it as an argument. -/
structure LoopCtx where
  learningRate : ℚ
  localIterations : ℕ
  correction : ℚ
  nudgeF : ℚ → Tensor → Tensor → Tensor

/-- The optimizer-slot loop of `step` lines 141–168 over
`zip(self.opts, self.model, self.grads)`, carrying the loop index and the
mutable `inps` list.  Per index: `continue` on a `None` slot; raise
`inconsistentConfiguration` when the slot is non-`None` but the layer is not a
`LocoLayer`; otherwise build `post_target = y - learning_rate * grad`
(a `None` grad is a float-times-`None` `TypeError`), run the local iterations,
and — only when `correction > 0` and a next recorded input exists — add the
correction increment to `inps[i + 1]` in place.  Returns the loop outcome
together with the final `inps` (retained even when an exception aborts the
loop). -/
def localLoop (ctx : LoopCtx) :
    List (Option Unit × Layer × Option Tensor) → ℕ → List Tensor →
    Except Err Unit × List Tensor
  | [], _, inps => (.ok (), inps)
  | (opt, layer, grad) :: rest, i, inps =>
    match opt with
    | none => localLoop ctx rest (i + 1) inps
    | some _ =>
      match layer with
      | .plain _ _ => (.error .inconsistentConfiguration, inps)
      | .loco l _ =>
        match grad with
        | none => (.error .typeError, inps)
        | some g =>
          let inp := inps.getD i []
          let a := l.module inp
          let y := l.actApply a
          let postTarget := tsub y (tsmul ctx.learningRate g)
          match runLocalIters l inp postTarget ctx.localIterations with
          | .error e => (.error e, inps)
          | .ok _ =>
            let inps' :=
              if 0 < ctx.correction ∧ i + 1 < inps.length then
                inps.set (i + 1)
                  (tadd (inps.getD (i + 1) [])
                    (ctx.nudgeF ctx.correction (l.applyFwd inp) (inps.getD (i + 1) [])))
              else inps
            localLoop ctx rest (i + 1) inps'

/-- Result of one `step` call.  `outcome` is the returned `hidden_loss`
(`.ok`) or the exception that aborted the call (`.error`); `finalStep` and
`finalGrads` are `self._step` and `self.grads` after the call — Python retains
these in-place mutations even when the call raises; `inps` is the local
recorded-inputs list as the loop left it. -/
structure StepResult where
  outcome : Except Err ℚ
  finalStep : ℕ
  finalGrads : List (Option Tensor)
  inps : List Tensor

/-- `LocopropTrainer.step` (source lines 110–169).  The scalar loss function
and the autodiff backward pass are external: `lossFn` stands for
`self.loss_fn(curr, ys)` as a function of the final output, and `oracle` for
the per-slot `h.grad` values the backward pass produced (see `harvestGrads`).
Restoring `requires_grad` on all parameters (lines 138–139) touches only
external autodiff state and is not modelled. -/
def Trainer.step (T : Trainer) (xs : Tensor) (lossFn : Tensor → ℚ)
    (oracle : List (Option Tensor)) (nudgeF : ℚ → Tensor → Tensor → Tensor) :
    StepResult :=
  let fw := forwardPass (T.model.zip T.opts) xs
  match nextGrads T fw.2.1 oracle with
  | .error e =>
    { outcome := .error e, finalStep := T.stepCount + 1, finalGrads := T.grads,
      inps := fw.1 }
  | .ok newGrads =>
    let lp := localLoop ⟨T.learningRate, T.localIterations, T.correction, nudgeF⟩
      (T.opts.zip (T.model.zip newGrads)) 0 fw.1
    { outcome := lp.1.map (fun _ => lossFn fw.2.2), finalStep := T.stepCount + 1,
      finalGrads := newGrads, inps := lp.2 }

/-- Sum of squares of one row, `Σ x²`. -/
def rowSumSq (row : List ℝ) : ℝ := (row.map (fun x => x * x)).sum

/-- Squared Frobenius norm of a 2-D tensor, so that `delta.norm()` is
`Real.sqrt (l2normSq delta)`.  The correction step of `step` lines 166–168 is
the one place where the square root matters, so this part of the model uses
`ℝ` (floats modelled as reals). -/
def l2normSq (t : List (List ℝ)) : ℝ := (t.map rowSumSq).sum

/-- Scalar multiplication of a 2-D real tensor. -/
def smul2 (c : ℝ) (t : List (List ℝ)) : List (List ℝ) :=
  t.map (fun row => row.map (fun x => c * x))

/-- `delta.size(1)`: the non-batch feature dimension (row length) of a 2-D
tensor whose first dimension is the batch. -/
def featDim (t : List (List ℝ)) : ℕ := (t.headD []).length

/-- The increment added to `inps[i + 1]` by the inter-layer correction
(`step` lines 166–168): with `norm = delta.norm() + 1e-5`, the increment is
`min(norm, correction * delta.size(1) ** 0.5) * delta / norm`. -/
noncomputable def deltaNudge (correction : ℝ) (delta : List (List ℝ)) : List (List ℝ) :=
  smul2 (min (Real.sqrt (l2normSq delta) + 1 / 100000)
              (correction * Real.sqrt (featDim delta)) /
         (Real.sqrt (l2normSq delta) + 1 / 100000)) delta

theorem rowSumSq_nonneg (row : List ℝ) : 0 ≤ rowSumSq row := by
  induction row with
  | nil => simp [rowSumSq]
  | cons x xs ih =>
    simp only [rowSumSq, List.map_cons, List.sum_cons] at ih ⊢
    exact add_nonneg (mul_self_nonneg x) ih

theorem l2normSq_nonneg (t : List (List ℝ)) : 0 ≤ l2normSq t := by
  induction t with
  | nil => simp [l2normSq]
  | cons row rest ih =>
    simp only [l2normSq, List.map_cons, List.sum_cons] at ih ⊢
    exact add_nonneg (rowSumSq_nonneg row) ih

theorem rowSumSq_smul (c : ℝ) (row : List ℝ) :
    rowSumSq (row.map (fun x => c * x)) = c ^ 2 * rowSumSq row := by
  induction row with
  | nil => simp [rowSumSq]
  | cons x xs ih =>
    simp only [rowSumSq, List.map_cons, List.sum_cons] at ih ⊢
    rw [ih]; ring

theorem l2normSq_smul2 (c : ℝ) (t : List (List ℝ)) :
    l2normSq (smul2 c t) = c ^ 2 * l2normSq t := by
  induction t with
  | nil => simp [l2normSq, smul2]
  | cons row rest ih =>
    simp only [l2normSq, smul2, List.map_cons, List.sum_cons] at ih ⊢
    rw [rowSumSq_smul, ih]; ring

/-- A concrete sample layer (identity module, Sigmoid activation identity,
identity as the opaque activation application, default `eps = 1e-5`) used to
instantiate universally quantified theorems below. -/
def probeL : LocoLayer := ⟨id, .sigmoid, id, false, 1 / 100000⟩

theorem forward_hidden_only (l : LocoLayer) (h : Tensor) :
    l.forward none (some h) = .ok (if l.implicit then h else l.actApply h) := rfl

theorem forward_input_only (l : LocoLayer) (x : Tensor) :
    l.forward (some x) none = .ok (l.applyFwd x) := rfl

/-- C1: the claimed round-trip law `pseudoInverse (activation preAct) = preAct`
cannot hold on the code as written: for every layer and every target tensor,
`_pseudo_inverse` raises before computing anything — `UnboundLocalError` on
the supported activations (the body reads `y` but the parameter is named
`target`), the unsupported-activation `ValueError` otherwise — so no call
returns a pre-activation at all. -/
theorem c1_pseudoInverse_always_raises (l : LocoLayer) (target : Tensor) :
    l.pseudoInverse target =
      .error (if l.act = .other then .unsupportedActivation else .unboundLocal) := by
  cases h : l.act <;> simp [LocoLayer.pseudoInverse, h]

/-- C1 witness: the failing behaviour evaluated at a concrete input — a
Sigmoid layer and target `sigmoid 0 = 1/2` (well inside the representable
range). -/
theorem c1_pseudoInverse_raises_witness :
    probeL.pseudoInverse [1 / 2] = .error .unboundLocal := by
  simpa using c1_pseudoInverse_always_raises probeL [1 / 2]

/-- C2: `bregman_loss` never returns the claimed Bregman-divergence value: for
every layer and every input/target pair it raises — the `_pseudo_inverse` call
on the target raises first (`UnboundLocalError` for supported activations,
the unsupported-activation `ValueError` otherwise); the later
`function_mapping[self.activation]` lookup (`KeyError`: class keys, instance
index) and the ReLU potential's undefined `F` are additional dead-on-arrival
slips behind it. -/
theorem c2_bregmanLoss_always_raises (l : LocoLayer) (x y : Tensor) :
    l.bregmanLoss x y =
      .error (if l.act = .other then .unsupportedActivation else .unboundLocal) := by
  cases h : l.act <;> simp [LocoLayer.bregmanLoss, LocoLayer.pseudoInverse, h]

/-- C2 witness: the failing behaviour evaluated at a concrete input —
identity module, Sigmoid activation, `x = [0]`, `y = [1/2]`. -/
theorem c2_bregmanLoss_raises_witness :
    probeL.bregmanLoss [0] [1 / 2] = .error .unboundLocal := by
  simpa using c2_bregmanLoss_always_raises probeL [0] [1 / 2]

/-- C8: `forward` with both arguments omitted fails with the invalid-argument
condition, and supplying exactly one of the two (either one) yields a normal
result, not that condition. -/
theorem c8_forward_argument_check (l : LocoLayer) (x h : Tensor) :
    l.forward none none = .error .invalidArgument ∧
    (∃ r, l.forward (some x) none = .ok r) ∧
    (∃ r, l.forward none (some h) = .ok r) :=
  ⟨rfl, ⟨_, rfl⟩, ⟨_, rfl⟩⟩

/-- C9: `forward` with both arguments supplied does not raise, returns the
value computed from the supplied pre-activation alone, and is independent of
the supplied input (the wrapped transform is never applied to it): it agrees
with the call that omits the input entirely. -/
theorem c9_forward_both_ignores_input (l : LocoLayer) (x xAlt h : Tensor) :
    l.forward (some x) (some h) = .ok (if l.implicit then h else l.actApply h) ∧
    l.forward (some x) (some h) = l.forward (some xAlt) (some h) ∧
    l.forward (some x) (some h) = l.forward none (some h) :=
  ⟨rfl, rfl, rfl⟩

/-- C8 witness: the argument check evaluated on the concrete sample layer. -/
theorem c8_forward_argument_check_witness :
    probeL.forward none none = .error .invalidArgument ∧
    (∃ r, probeL.forward (some [0]) none = .ok r) ∧
    (∃ r, probeL.forward none (some [0]) = .ok r) :=
  c8_forward_argument_check probeL [0] [0]

/-- C9 witness: the both-arguments case evaluated on the concrete sample
layer, with two different inputs. -/
theorem c9_forward_both_ignores_input_witness :
    probeL.forward (some [0]) (some [1]) =
      .ok (if probeL.implicit then [1] else probeL.actApply [1]) ∧
    probeL.forward (some [0]) (some [1]) = probeL.forward (some [7]) (some [1]) ∧
    probeL.forward (some [0]) (some [1]) = probeL.forward none (some [1]) :=
  c9_forward_both_ignores_input probeL [0] [7] [1]

/-- C4: the increment the inter-layer correction adds to `inps[i + 1]` has
Frobenius norm at most `correction * sqrt(feature_dim)`: the coefficient
`min(norm, cap) / norm` scales `delta` down to at most the cap, because
`norm = ‖delta‖ + 1e-5 ≥ ‖delta‖`. -/
theorem c4_nudge_norm_le_cap (correction : ℝ) (delta : List (List ℝ))
    (hc : 0 < correction) :
    Real.sqrt (l2normSq (deltaNudge correction delta)) ≤
      correction * Real.sqrt (featDim delta) := by
  have hS : 0 ≤ l2normSq delta := l2normSq_nonneg delta
  have hn : (0 : ℝ) < Real.sqrt (l2normSq delta) + 1 / 100000 := by positivity
  have hcap : 0 ≤ correction * Real.sqrt (featDim delta) :=
    mul_nonneg hc.le (Real.sqrt_nonneg _)
  have hco : 0 ≤ min (Real.sqrt (l2normSq delta) + 1 / 100000)
      (correction * Real.sqrt (featDim delta)) /
      (Real.sqrt (l2normSq delta) + 1 / 100000) :=
    div_nonneg (le_min hn.le hcap) hn.le
  simp only [deltaNudge]
  rw [l2normSq_smul2, Real.sqrt_mul (sq_nonneg _), Real.sqrt_sq hco]
  calc min (Real.sqrt (l2normSq delta) + 1 / 100000)
        (correction * Real.sqrt (featDim delta)) /
        (Real.sqrt (l2normSq delta) + 1 / 100000) * Real.sqrt (l2normSq delta)
      ≤ min (Real.sqrt (l2normSq delta) + 1 / 100000)
        (correction * Real.sqrt (featDim delta)) /
        (Real.sqrt (l2normSq delta) + 1 / 100000) *
        (Real.sqrt (l2normSq delta) + 1 / 100000) :=
        mul_le_mul_of_nonneg_left (le_add_of_nonneg_right (by norm_num)) hco
    _ = min (Real.sqrt (l2normSq delta) + 1 / 100000)
        (correction * Real.sqrt (featDim delta)) := div_mul_cancel₀ _ hn.ne'
    _ ≤ correction * Real.sqrt (featDim delta) := min_le_right _ _

/-- C4 witness: the bound instantiated at `correction = 1`,
`delta = [[1]]`. -/
theorem c4_nudge_norm_le_cap_witness :
    0 < (1 : ℝ) ∧
    Real.sqrt (l2normSq (deltaNudge 1 [[1]])) ≤
      1 * Real.sqrt (featDim ([[1]] : List (List ℝ))) :=
  ⟨one_pos, c4_nudge_norm_le_cap 1 [[1]] one_pos⟩

theorem mkWarningsAux_ge (k : ℕ) (m : List Layer) (j : ℕ)
    (hj : j ∈ mkWarningsAux k m) : k ≤ j := by
  induction m generalizing k with
  | nil => simp [mkWarningsAux] at hj
  | cons hd tl ih =>
    simp only [mkWarningsAux] at hj
    by_cases hc : 0 < hd.trainableParams ∧ hd.isLoco = false
    · rw [if_pos hc] at hj
      rcases List.mem_cons.mp hj with h1 | h2
      · omega
      · have := ih (k + 1) h2; omega
    · rw [if_neg hc] at hj
      have := ih (k + 1) hj; omega

theorem mkWarningsAux_nodup (k : ℕ) (m : List Layer) :
    (mkWarningsAux k m).Nodup := by
  induction m generalizing k with
  | nil => simp [mkWarningsAux]
  | cons hd tl ih =>
    simp only [mkWarningsAux]
    by_cases hc : 0 < hd.trainableParams ∧ hd.isLoco = false
    · rw [if_pos hc]
      refine List.nodup_cons.mpr ⟨fun hk => ?_, ih (k + 1)⟩
      have := mkWarningsAux_ge (k + 1) tl k hk; omega
    · rw [if_neg hc]; exact ih (k + 1)

theorem mkWarningsAux_mem (k : ℕ) (m : List Layer) (i : ℕ) (l : Layer)
    (h : m.get? i = some l) :
    (k + i ∈ mkWarningsAux k m ↔ (0 < l.trainableParams ∧ l.isLoco = false)) := by
  induction m generalizing k i with
  | nil => simp at h
  | cons hd tl ih =>
    cases i with
    | zero =>
      simp only [List.get?] at h
      injection h with h; subst h
      simp only [mkWarningsAux, Nat.add_zero]
      by_cases hc : 0 < hd.trainableParams ∧ hd.isLoco = false
      · simp [hc]
      · rw [if_neg hc]
        constructor
        · intro hk
          have := mkWarningsAux_ge (k + 1) tl k hk; omega
        · intro hcontr; exact absurd hcontr hc
    | succ j =>
      simp only [List.get?] at h
      have heq : k + (j + 1) = (k + 1) + j := by omega
      rw [heq]
      simp only [mkWarningsAux]
      by_cases hc : 0 < hd.trainableParams ∧ hd.isLoco = false
      · rw [if_pos hc, List.mem_cons]
        have hne : (k + 1) + j ≠ k := by omega
        simp [hne, ih (k + 1) j h]
      · rw [if_neg hc]; exact ih (k + 1) j h

/-- C7: trainer construction is index-aligned: the optimizer-slot list has the
same length as the layer list; the slot at index `i` holds an optimizer
exactly when layer `i` is a `LocoLayer` with trainable parameters (so every
other layer gets `None` there); and a layer with trainable parameters that is
not a `LocoLayer` triggers exactly one warning, at its own index (the warning
list has no duplicates and contains precisely those indices). -/
theorem c7_constructor_slots_and_warnings (model : List Layer) (i : ℕ) (l : Layer)
    (h : model.get? i = some l) :
    (mkOpts model).length = model.length ∧
    ((mkOpts model).get? i = some (some ()) ↔
      (l.isLoco = true ∧ 0 < l.trainableParams)) ∧
    (mkWarnings model).Nodup ∧
    (i ∈ mkWarnings model ↔ (0 < l.trainableParams ∧ l.isLoco = false)) := by
  refine ⟨by simp [mkOpts], ?_, mkWarningsAux_nodup 0 model, ?_⟩
  · rw [mkOpts, List.get?_map, h]
    by_cases hc : l.isLoco = true ∧ 0 < l.trainableParams <;> simp [hc]
  · simpa using mkWarningsAux_mem 0 model i l h

/-- C7 witness: a one-layer model whose layer is plain but trainable — the
slot list is `[None]` and the warning list is exactly `[0]`. -/
theorem c7_constructor_slots_and_warnings_witness :
    (mkOpts [Layer.plain id 1]).length = [Layer.plain id 1].length ∧
    ((mkOpts [Layer.plain id 1]).get? 0 = some (some ()) ↔
      ((Layer.plain id 1).isLoco = true ∧ 0 < (Layer.plain id 1).trainableParams)) ∧
    (mkWarnings [Layer.plain id 1]).Nodup ∧
    (0 ∈ mkWarnings [Layer.plain id 1] ↔
      (0 < (Layer.plain id 1).trainableParams ∧ (Layer.plain id 1).isLoco = false)) :=
  c7_constructor_slots_and_warnings [Layer.plain id 1] 0 (Layer.plain id 1) rfl

theorem localLoop_correction_zero (ctx : LoopCtx) (hc : ctx.correction = 0)
    (triples : List (Option Unit × Layer × Option Tensor)) (i : ℕ)
    (inps : List Tensor) :
    (localLoop ctx triples i inps).2 = inps := by
  induction triples generalizing i with
  | nil => rfl
  | cons t rest ih =>
    obtain ⟨opt, layer, grad⟩ := t
    cases opt with
    | none => simpa only [localLoop] using ih (i + 1)
    | some u =>
      cases layer with
      | plain f n => rfl
      | loco l n =>
        cases grad with
        | none => rfl
        | some g =>
          simp only [localLoop]
          cases hr : runLocalIters l (inps.getD i [])
              (tsub (l.actApply (l.module (inps.getD i [])))
                (tsmul ctx.learningRate g)) ctx.localIterations with
          | error e => simp [hr]
          | ok u2 =>
            simp only [hr]
            have hno : ¬(0 < ctx.correction ∧ i + 1 < inps.length) := by
              rw [hc]; simp
            rw [if_neg hno]
            exact ih (i + 1)

/-- C5: with `correction = 0` the per-layer local-optimization loop leaves the
recorded-inputs list exactly as the forward pass produced it (whether the loop
completes or aborts with an exception): the only statement that writes into
`inps` is guarded by `correction > 0`. -/
theorem c5_correction_zero_inps_unchanged (T : Trainer) (xs : Tensor)
    (lossFn : Tensor → ℚ) (oracle : List (Option Tensor))
    (nudgeF : ℚ → Tensor → Tensor → Tensor) (hc : T.correction = 0) :
    (T.step xs lossFn oracle nudgeF).inps =
      (forwardPass (T.model.zip T.opts) xs).1 := by
  simp only [Trainer.step]
  cases hg : nextGrads T (forwardPass (T.model.zip T.opts) xs).2.1 oracle with
  | error e => simp [hg]
  | ok newGrads =>
    simp only [hg]
    exact localLoop_correction_zero ⟨T.learningRate, T.localIterations, T.correction, nudgeF⟩
      hc _ 0 _

/-- A one-trainable-layer trainer with `correction = 0`, `momentum = 0` and
`local_iterations = 0`, used as a concrete instantiation. -/
def w5T : Trainer :=
  { model := [.loco probeL 1], opts := [some ()], grads := [], stepCount := 0,
    momentum := 0, learningRate := 10, localIterations := 0, correction := 0 }

/-- C5 witness: the frame property evaluated on a concrete trainer. -/
theorem c5_correction_zero_inps_unchanged_witness :
    (w5T.step [1] (fun _ => 0) [some [1]] (fun _ _ _ => [])).inps =
      (forwardPass (w5T.model.zip w5T.opts) [1]).1 :=
  c5_correction_zero_inps_unchanged w5T [1] (fun _ => 0) [some [1]]
    (fun _ _ _ => []) rfl

/-- C6 (amended): when the optimizer-slot loop reaches a non-`None` slot whose
layer is not a `LocoLayer` — in particular whenever every earlier slot is
`None` — it raises the inconsistent-configuration error immediately and the
recorded-inputs list is untouched (no parameter is silently updated; in this
model the optimizer never completes a parameter update at all, see
`runLocalIters`). -/
theorem c6_inconsistent_slot_raises (ctx : LoopCtx)
    (pre rest : List (Option Unit × Layer × Option Tensor))
    (f : Tensor → Tensor) (n : ℕ) (g : Option Tensor) (i : ℕ)
    (inps : List Tensor) (hpre : ∀ t ∈ pre, t.1 = none) :
    localLoop ctx (pre ++ (some (), Layer.plain f n, g) :: rest) i inps =
      (.error .inconsistentConfiguration, inps) := by
  induction pre generalizing i with
  | nil => rfl
  | cons t pre2 ih =>
    obtain ⟨opt, layer, grad⟩ := t
    have h1 : opt = none := hpre ⟨opt, layer, grad⟩ (List.mem_cons_self _ _)
    subst h1
    simp only [List.cons_append, localLoop]
    exact ih (i + 1) (fun t ht => hpre t (List.mem_cons_of_mem _ ht))

/-- C6 amended-claim witness: the corrupted slot is the first (and only)
slot processed. -/
theorem c6_inconsistent_slot_raises_witness :
    localLoop ⟨10, 1, 1 / 10, fun _ _ _ => []⟩
        ([] ++ (some (), Layer.plain id 1, none) :: []) 0 [[1]] =
      (.error .inconsistentConfiguration, [[1]]) :=
  c6_inconsistent_slot_raises ⟨10, 1, 1 / 10, fun _ _ _ => []⟩ [] [] id 1 none 0
    [[1]] (by simp)

/-- A trainer whose optimizer-slot list marks a plain layer (index 1) as
holding a slot, preceded by a genuinely trainable `LocoLayer` (index 0), with
the default-like `local_iterations = 1`. -/
def c6T : Trainer :=
  { model := [.loco probeL 1, .plain id 1], opts := [some (), some ()],
    grads := [], stepCount := 0, momentum := 0, learningRate := 10,
    localIterations := 1, correction := 1 / 10 }

/-- C6 counterexample: `c6T` has a non-`None` slot at index 1 whose layer is
not a `LocoLayer`, yet `step` does not fail with the
inconsistent-configuration error: the earlier trainable `LocoLayer` runs its
first local iteration, whose `bregman_loss` call raises `UnboundLocalError`
from `_pseudo_inverse` before the loop ever reaches the corrupted slot. -/
theorem c6_counterexample_earlier_layer_raises_first :
    c6T.opts.get? 1 = some (some ()) ∧
    (c6T.model.getD 1 default).isLoco = false ∧
    (c6T.step [1] (fun _ => 0) [some [1], none] (fun _ _ _ => [])).outcome =
      .error .unboundLocal ∧
    Err.unboundLocal ≠ Err.inconsistentConfiguration :=
  ⟨rfl, rfl, rfl, by simp⟩

theorem emaCombine_error_typeError (momentum debias : ℚ) (g m : Option Tensor)
    (e : Err) (h : emaCombine momentum debias g m = .error e) : e = .typeError := by
  cases m with
  | none => simp [emaCombine] at h
  | some mv =>
    cases g with
    | none => simpa [emaCombine] using h.symm
    | some gv => simp [emaCombine] at h

theorem emaZip_error_typeError (momentum debias : ℚ) :
    ∀ (gs ms : List (Option Tensor)) (e : Err),
    emaZip momentum debias gs ms = .error e → e = .typeError := by
  intro gs
  induction gs with
  | nil => intro ms e h; simp [emaZip] at h
  | cons g gs2 ih =>
    intro ms e h
    cases ms with
    | nil => simp [emaZip] at h
    | cons m ms2 =>
      simp only [emaZip] at h
      cases hc : emaCombine momentum debias g m with
      | error e2 =>
        rw [hc] at h
        injection h with h
        exact h ▸ emaCombine_error_typeError momentum debias g m e2 hc
      | ok r =>
        rw [hc] at h
        cases hz : emaZip momentum debias gs2 ms2 with
        | error e2 =>
          rw [hz] at h
          injection h with h
          exact h ▸ ih ms2 e2 hz
        | ok rs => rw [hz] at h; cases h

theorem nextGrads_error_typeError (T : Trainer) (hiddens oracle : List (Option Tensor))
    (e : Err) (h : nextGrads T hiddens oracle = .error e) : e = .typeError := by
  simp only [nextGrads] at h
  by_cases hemp : T.grads.isEmpty
  · rw [if_pos hemp] at h; cases h
  · rw [if_neg hemp] at h
    exact emaZip_error_typeError _ _ _ _ _ h

/-- C10: a `step` call that ends in the inconsistent-configuration error is
not atomic for trainer-owned state: by the time the error is raised the step
counter has already been incremented and the gradient-EMA slots have already
been replaced by this call's smoothed gradients (the value `nextGrads`
computes), and neither is rolled back.  (The step counter is incremented even
when the EMA itself raises; the EMA can only raise the float-times-`None`
`TypeError`, never the inconsistent-configuration error, so under the
hypothesis the EMA assignment completed.) -/
theorem c10_step_failure_not_atomic (T : Trainer) (xs : Tensor)
    (lossFn : Tensor → ℚ) (oracle : List (Option Tensor))
    (nudgeF : ℚ → Tensor → Tensor → Tensor)
    (h : (T.step xs lossFn oracle nudgeF).outcome = .error .inconsistentConfiguration) :
    (T.step xs lossFn oracle nudgeF).finalStep = T.stepCount + 1 ∧
    nextGrads T (forwardPass (T.model.zip T.opts) xs).2.1 oracle =
      .ok (T.step xs lossFn oracle nudgeF).finalGrads := by
  cases hg : nextGrads T (forwardPass (T.model.zip T.opts) xs).2.1 oracle with
  | error e =>
    have he : e = .typeError := nextGrads_error_typeError T _ oracle e hg
    simp only [Trainer.step, hg] at h
    injection h with h
    rw [he] at h
    cases h
  | ok newGrads =>
    constructor
    · simp [Trainer.step, hg]
    · simp [Trainer.step, hg]

/-- A trainer whose only layer is plain but marked as holding an optimizer
slot: its `step` raises the inconsistent-configuration error at loop index
0. -/
def w10T : Trainer :=
  { model := [.plain id 1], opts := [some ()], grads := [], stepCount := 0,
    momentum := 0, learningRate := 10, localIterations := 1, correction := 1 / 10 }

/-- C10 witness: the non-atomicity facts evaluated on a concrete failing
`step`. -/
theorem c10_step_failure_not_atomic_witness :
    (w10T.step [1] (fun _ => 0) [none] (fun _ _ _ => [])).finalStep =
      w10T.stepCount + 1 ∧
    nextGrads w10T (forwardPass (w10T.model.zip w10T.opts) [1]).2.1 [none] =
      .ok (w10T.step [1] (fun _ => 0) [none] (fun _ _ _ => [])).finalGrads :=
  c10_step_failure_not_atomic w10T [1] (fun _ => 0) [none] (fun _ _ _ => []) rfl

/-- A trainer with the default `momentum = 0`, one trainable `LocoLayer`
(identity module and opaque activation), `local_iterations = 0` and
`correction = 0`, as a minimal setting in which `step` completes. -/
def c3T1 : Trainer :=
  { model := [.loco probeL 1], opts := [some ()], grads := [], stepCount := 0,
    momentum := 0, learningRate := 10, localIterations := 0, correction := 0 }

/-- First `step` call on `c3T1`, with observed hidden-state gradient `[1]`. -/
def c3r1 : StepResult := c3T1.step [1] (fun _ => 0) [some [1]] (fun _ _ _ => [])

/-- The trainer state after the first call. -/
def c3T2 : Trainer :=
  { c3T1 with grads := c3r1.finalGrads, stepCount := c3r1.finalStep }

/-- Second `step` call, with the same observed gradient `[1]`. -/
def c3r2 : StepResult := c3T2.step [1] (fun _ => 0) [some [1]] (fun _ _ _ => [])

/-- C3: with `momentum = 0` the gradient-EMA slot equals the freshly observed
gradient after the *first* `step` call, but not after the second: the debias
denominator `1 - (1 - momentum) ** step` is `1 - 1 ** 2 = 0` there, so the
slot becomes `g / 0` — `inf`/`NaN` under float semantics, the junk value `0`
in this rational model — and in either semantics it differs from the observed
gradient `[1]`. -/
theorem c3_momentum_zero_second_step_diverges :
    c3r1.finalGrads = [some [1]] ∧
    c3r2.finalGrads = [some [0]] ∧
    c3r2.finalGrads ≠ [some [1]] := by
  have hg2 : nextGrads c3T2 (forwardPass (c3T2.model.zip c3T2.opts) [1]).2.1
      [some [1]] = .ok [some [0]] := by
    have hm : c3T2.momentum = 0 := rfl
    have hs : c3T2.stepCount = 1 := rfl
    have hgr : c3T2.grads = [some [1]] := rfl
    have hfw : (forwardPass (c3T2.model.zip c3T2.opts) [1]).2.1 = [some [1]] := rfl
    rw [hfw, nextGrads, hm, hs, hgr]
    norm_num [harvestGrads, emaZip, emaCombine, emaPoint]
  have h2 : c3r2.finalGrads = [some [0]] := by
    show (c3T2.step [1] (fun _ => 0) [some [1]] (fun _ _ _ => [])).finalGrads =
      [some [0]]
    simp [Trainer.step, hg2]
  exact ⟨rfl, h2, by rw [h2]; decide⟩
